import Mathlib

/-!
Shallow embedding of the mlog MQTT logger core (`src/main.rs`): the timestamp
formatter, the topic-file registry, the subscription initializer, the event
dispatcher loop and the dual-sink writer.

Modelling conventions:
* The wall clock (`chrono::Local::now()`) is a stream `clock : Nat → Timestamp`
  indexed by how many times `generate_timestamp` has been called so far; the
  dispatcher threads that counter.
* Side effects are reified as an ordered trace of `Output` events.  A Rust
  `write_all` + `flush` pair on a topic file is one durable
  `Output.fileWrite topic handle bytes` event; a stdout record write + flush is
  one `Output.stdoutWrite` event; `println!` / `eprintln!` lines are
  `Output.stdoutLine` / `Output.stderrLine` events.
* `HashMap<String, File>` is an association list with replace-on-insert
  semantics (`Registry.insert` removes any previous binding of the key); file
  handles are identified by the index of the loop iteration that opened them.
  The `.expect` panic on file-open failure is a process abort and is not
  reached in any modelled run: opening is modelled as succeeding, which is the
  only way initialization completes.
* Payloads and records are Lean `String`s; UTF-8 encoding of a concatenation
  is the concatenation of the encodings, so byte-level claims are stated at
  string level.  `Bytes::from` / `into_bytes` are therefore identities here.
* `client.subscribe(...).await.is_err()` is an oracle `subErr : Nat → Bool`
  indexed by issuance order (the transport collaborator decides each outcome).
* `fs::read_to_string` is an oracle `readFile : String → IoResult String`.
* Rust `str::trim` / `str::lines` are re-implemented over `List Char`
  (`rustTrim`, `rustLines`); trimming covers the ASCII whitespace characters,
  which are the ones the claims exercise.
-/

/-- A captured wall-clock instant, the fields `generate_timestamp` reads from
`chrono::Local::now()`. -/
structure Timestamp where
  year : Nat
  month : Nat
  day : Nat
  hour : Nat
  minute : Nat
  second : Nat
  millisecond : Nat
deriving DecidableEq

/-- Rust's `{:0w}` fixed-width formatting of a nonnegative integer: the decimal
digits left-padded with zeros to width `w`. -/
def zeroPad (w n : Nat) : String :=
  let s := toString n
  String.mk (List.replicate (w - s.length) '0') ++ s

/-- ANSI reset escape sequence, `"\x1b[0m"` in the source. -/
def RESET : String := "\x1b[0m"

/-- ANSI green foreground escape sequence, `"\x1b[32m"` in the source. -/
def GREEN : String := "\x1b[32m"

/-- ANSI blue foreground escape sequence, `"\x1b[34m"` in the source. -/
def BLUE : String := "\x1b[34m"

/-- The fixed-width digit block `YYYY-MM-DD HH:MM:SS.mmm` of a timestamp. -/
def timestamp_digits (t : Timestamp) : String :=
  zeroPad 4 t.year ++ "-" ++ zeroPad 2 t.month ++ "-" ++ zeroPad 2 t.day ++ " " ++
  zeroPad 2 t.hour ++ ":" ++ zeroPad 2 t.minute ++ ":" ++ zeroPad 2 t.second ++ "." ++
  zeroPad 3 t.millisecond

/-- `generate_timestamp` from the source: renders the current instant as
`RESET [ GREEN digits RESET ] ` — an ANSI-colorized bracketed timestamp with a
trailing space.  The instant is a parameter because `Local::now()` is external
input. -/
def generate_timestamp (t : Timestamp) : String :=
  RESET ++ "[" ++ GREEN ++ timestamp_digits t ++ RESET ++ "] "

/-- The plain (escape-free) timestamp rendering the spec describes for the file
sink: `[YYYY-MM-DD HH:MM:SS.mmm] `.  This definition follows the spec's words,
for comparison with `generate_timestamp`, which is what the source uses. -/
def plain_timestamp (t : Timestamp) : String :=
  "[" ++ timestamp_digits t ++ "] "

/-- The colorized topic tag `format!("{RESET}[{BLUE}{topic}{RESET}] ")` from
`write_to_stdout`. -/
def topic_tag (topic : String) : String :=
  RESET ++ "[" ++ BLUE ++ topic ++ RESET ++ "] "

/-- A received MQTT publication: `rumqttc::Publish`, restricted to the fields
the program reads. -/
structure Publish where
  topic : String
  payload : String
deriving DecidableEq

/-- `rumqttc::QoS`. -/
inductive QoS where
  | AtMostOnce
  | AtLeastOnce
  | ExactlyOnce
deriving DecidableEq

/-- `rumqttc::SubscribeReasonCode`. -/
inductive SubscribeReasonCode where
  | Success (qos : QoS)
  | Failure
deriving DecidableEq

/-- `rumqttc::ConnectReturnCode`. -/
inductive ConnectReturnCode where
  | Success
  | RefusedProtocolVersion
  | BadClientId
  | ServiceUnavailable
  | BadUserNamePassword
  | NotAuthorized
deriving DecidableEq

/-- The incoming packet kinds the dispatcher matches on; every packet kind the
source's wildcard arm ignores is collapsed into `Other`. -/
inductive Packet where
  | Publish (p : Publish)
  | SubAck (return_codes : List SubscribeReasonCode)
  | ConnAck (code : ConnectReturnCode)
  | Disconnect
  | Other
deriving DecidableEq

/-- `rumqttc::Event`: an incoming packet or an outgoing notification (the
source ignores all outgoing notifications uniformly). -/
inductive Event where
  | Incoming (p : Packet)
  | Outgoing
deriving DecidableEq

/-- One result of `eventloop.poll().await`: a notification or a connection
error (carrying its display string). -/
inductive PollResult where
  | ok (e : Event)
  | error (detail : String)
deriving DecidableEq

/-- `std::io::Result` — `Ok` or `Err` with the error's display string. -/
inductive IoResult (α : Type) where
  | ok (a : α)
  | error (e : String)
deriving DecidableEq

/-- The process exit status determined by `main`'s returned `io::Result`:
`Ok` exits 0, `Err` exits 1. -/
def exit_code : IoResult Unit → Nat
  | IoResult.ok _ => 0
  | IoResult.error _ => 1

/-- One observable side effect of the core, in program order. -/
inductive Output where
  | fileWrite (topic : String) (handle : Nat) (bytes : String)
  | stdoutWrite (bytes : String)
  | stdoutLine (line : String)
  | stderrLine (line : String)
deriving DecidableEq

/-- The topic-file registry: `HashMap<String, File>` as an association list
from topic to file handle. -/
abbrev Registry := List (String × Nat)

/-- Remove every binding of key `k` (helper for replace-on-insert). -/
def Registry.removeKey : Registry → String → Registry
  | [], _ => []
  | (k', v') :: rest, k =>
      if k' = k then Registry.removeKey rest k
      else (k', v') :: Registry.removeKey rest k

/-- `HashMap::insert`: bind `k` to `v`, replacing any previous binding. -/
def Registry.insert (r : Registry) (k : String) (v : Nat) : Registry :=
  (k, v) :: Registry.removeKey r k

/-- `HashMap::get`. -/
def Registry.lookup : Registry → String → Option Nat
  | [], _ => none
  | (k', v') :: rest, t => if t = k' then some v' else Registry.lookup rest t

/-- Number of registry entries bound to topic `t`. -/
def Registry.entryCount : Registry → String → Nat
  | [], _ => 0
  | (k', _) :: rest, t => (if k' = t then 1 else 0) + Registry.entryCount rest t

/-- `write_to_file` from the source: build `timestamp ++ payload ++ "\n"`,
look the topic up in the registry; if present, durably append the record to
that topic's file (write + flush); if absent, print a warning naming the topic
to stderr and write nothing. -/
def write_to_file (timestamp : String) (data : Publish) (files : Registry) : List Output :=
  let res := timestamp ++ data.payload ++ "\n"
  match Registry.lookup files data.topic with
  | some h => [Output.fileWrite data.topic h res]
  | none => [Output.stderrLine
      ("Got packet from topic " ++ data.topic ++ ", but that topic file was not created!")]

/-- `write_to_stdout` from the source: unconditionally write
`timestamp ++ colorized-topic-tag ++ payload ++ "\n"` to stdout and flush. -/
def write_to_stdout (timestamp : String) (data : Publish) : List Output :=
  [Output.stdoutWrite (timestamp ++ topic_tag data.topic ++ data.payload ++ "\n")]

/-- The `for code in s.return_codes` audit inside the `SubAck` arm: one stderr
line per `Failure` code. -/
def subAckOutputs : List SubscribeReasonCode → List Output
  | [] => []
  | c :: rest =>
      (if c = SubscribeReasonCode.Failure
       then [Output.stderrLine "Got a subscribe fail packet!"] else []) ++
      subAckOutputs rest

/-- One dispatch of a successfully polled notification (the `Ok` arm of the
loop's match).  Returns the emitted outputs, the registry left behind, and the
updated count of `generate_timestamp` calls. -/
def handle_notification (clock : Nat → Timestamp) (ev : Event) (files : Registry)
    (n : Nat) : List Output × Registry × Nat :=
  match ev with
  | Event.Incoming p =>
      match p with
      | Packet.Publish pub =>
          let timestamp := generate_timestamp (clock n)
          (write_to_file timestamp pub files ++ write_to_stdout timestamp pub, files, n + 1)
      | Packet.SubAck codes => (subAckOutputs codes, files, n)
      | Packet.ConnAck c =>
          ((if c = ConnectReturnCode.Success
            then [Output.stdoutLine "Connection established"] else []), files, n)
      | Packet.Disconnect => ([Output.stdoutLine "Got disconnect"], files, n)
      | Packet.Other => ([], files, n)
  | Event.Outgoing => ([], files, n)

/-- The state `process_events` ends in when it runs on a finite poll trace. -/
structure LoopState where
  outputs : List Output
  result : IoResult Unit
  remaining : List PollResult
  files : Registry
  clockCalls : Nat
deriving DecidableEq

/-- `process_events` from the source, on a finite trace of poll results: each
`Ok` notification is dispatched and the loop continues; the first poll error
prints the error detail to stderr and breaks, leaving the rest of the trace
unconsumed; the function returns `Ok(())` in every case. -/
def process_events (clock : Nat → Timestamp) :
    List PollResult → Registry → Nat → LoopState
  | [], files, n => ⟨[], IoResult.ok (), [], files, n⟩
  | PollResult.ok ev :: rest, files, n =>
      let step := handle_notification clock ev files n
      let s := process_events clock rest step.2.1 step.2.2
      ⟨step.1 ++ s.outputs, s.result, s.remaining, s.files, s.clockCalls⟩
  | PollResult.error e :: rest, files, n =>
      ⟨[Output.stderrLine e], IoResult.ok (), rest, files, n⟩

/-- Result of `initialize_files_and_subscriptions`: the populated registry,
the startup outputs, and the subscribe commands issued, in order. -/
structure InitState where
  files : Registry
  outputs : List Output
  subs : List String
deriving DecidableEq

/-- The per-topic loop of `initialize_files_and_subscriptions`: for each topic
in order, issue a subscribe command (reporting a submission failure to stderr
but continuing), then open `<topic>.txt` and insert the handle, replacing any
earlier binding.  `i` numbers the iterations; the handle opened at iteration
`i` is `i`. -/
def initLoop (subErr : Nat → Bool) : List String → Nat → Registry → InitState
  | [], _, files => ⟨files, [], []⟩
  | topic :: rest, i, files =>
      let errOut :=
        if subErr i then [Output.stderrLine ("Failed to subscribe to " ++ topic)] else []
      let s := initLoop subErr rest (i + 1) (Registry.insert files topic i)
      ⟨s.files, errOut ++ s.outputs, topic :: s.subs⟩

/-- Debug rendering of the topic list for the startup banner (`{topics:?}`). -/
def fmtTopics (topics : List String) : String :=
  "[" ++ String.intercalate ", " (topics.map (fun t => "\"" ++ t ++ "\"")) ++ "]"

/-- `initialize_files_and_subscriptions` from the source: print the selected
topics, then run the per-topic loop over an initially empty registry. -/
def initialize_files_and_subscriptions (subErr : Nat → Bool) (topics : List String) :
    InitState :=
  let s := initLoop subErr topics 0 []
  ⟨s.files, Output.stdoutLine ("Selected topics: " ++ fmtTopics topics) :: s.outputs, s.subs⟩

/-- ASCII whitespace recognized by the trimming model. -/
def isWs (c : Char) : Bool :=
  c == ' ' || c == '\t' || c == '\n' || c == '\r'

/-- Rust `str::trim` on the characters of a string: drop whitespace from both
ends. -/
def trimChars (cs : List Char) : List Char :=
  ((cs.dropWhile isWs).reverse.dropWhile isWs).reverse

/-- Rust `str::trim` at string level. -/
def rustTrim (s : String) : String :=
  String.mk (trimChars s.data)

/-- Split a character list at `'\n'`, keeping empty segments. -/
def splitNl : List Char → List Char → List (List Char)
  | [], acc => [acc.reverse]
  | '\n' :: rest, acc => acc.reverse :: splitNl rest []
  | c :: rest, acc => splitNl rest (c :: acc)

/-- Rust `str::lines`: split at `'\n'`, strip one trailing `'\r'` from each
line, and do not yield the empty segment after a final newline (so `""` has no
lines). -/
def rustLines (s : String) : List String :=
  let parts := splitNl s.data []
  let parts := if parts.getLast? = some [] then parts.dropLast else parts
  parts.map (fun l =>
    String.mk (if l.getLast? = some '\r' then l.dropLast else l))

/-- `initialize_topics` from the source: with `--topics-file`, read the file
(propagating a read error), trim the whole content, split it into lines and
trim each line; otherwise use the CLI topic list as given. -/
def initialize_topics (topics_file : Option String) (cli_topics : List String)
    (readFile : String → IoResult String) : IoResult (List String) :=
  match topics_file with
  | some path =>
      match readFile path with
      | IoResult.ok content =>
          IoResult.ok ((rustLines (rustTrim content)).map rustTrim)
      | IoResult.error e => IoResult.error e
  | none => IoResult.ok cli_topics

/-- `main` after topic resolution: build the registry and subscriptions, then
run the event loop on it from a zero clock counter; the process exit status is
determined by the loop's returned `io::Result`. -/
def run_main (subErr : Nat → Bool) (topics : List String) (clock : Nat → Timestamp)
    (evs : List PollResult) : LoopState × Nat :=
  let init := initialize_files_and_subscriptions subErr topics
  let s := process_events clock evs init.files 0
  (s, exit_code s.result)

/-- Index of the last occurrence of `t` in a topic list (specification-side
helper for the replace-on-insert registry). -/
def lastOcc : List String → String → Option Nat
  | [], _ => none
  | a :: rest, t =>
      match lastOcc rest t with
      | some j => some (j + 1)
      | none => if a = t then some 0 else none

/-- Recognize a durable file-append event. -/
def isFileWrite : Output → Bool
  | Output.fileWrite _ _ _ => true
  | _ => false

/-- Number of durable file-append operations in an output trace. -/
def countFileWrites (outs : List Output) : Nat :=
  (outs.filter isFileWrite).length

/-! ### Helper lemmas -/

theorem mem_data_append_left {c : Char} (s t : String) (h : c ∈ s.data) :
    c ∈ (s ++ t).data := by
  rw [String.data_append]
  exact List.mem_append_left _ h

theorem esc_mem_record (ts : Timestamp) (s : String) :
    '\x1b' ∈ (generate_timestamp ts ++ s ++ "\n").data := by
  unfold generate_timestamp
  repeat apply mem_data_append_left
  decide

theorem getLast?_append_some {α : Type} {l₂ : List α} (l₁ : List α) {x : α}
    (h : l₂.getLast? = some x) : (l₁ ++ l₂).getLast? = some x := by
  have hne : l₂ ≠ [] := by
    intro hnil
    rw [hnil] at h
    exact Option.noConfusion h
  rw [List.getLast?_append_of_ne_nil l₁ hne, h]

theorem countFileWrites_append (a b : List Output) :
    countFileWrites (a ++ b) = countFileWrites a + countFileWrites b := by
  simp [countFileWrites, List.filter_append]

theorem lookup_removeKey {t k : String} (r : Registry) (h : t ≠ k) :
    Registry.lookup (Registry.removeKey r k) t = Registry.lookup r t := by
  induction r with
  | nil => rfl
  | cons p rest ih =>
    obtain ⟨k', v'⟩ := p
    by_cases hk : k' = k
    · subst hk
      simp [Registry.removeKey, Registry.lookup, h, ih]
    · simp [Registry.removeKey, Registry.lookup, hk, ih]

theorem lookup_insert (r : Registry) (k : String) (v : Nat) (t : String) :
    Registry.lookup (Registry.insert r k v) t =
      if t = k then some v else Registry.lookup r t := by
  by_cases h : t = k
  · simp [Registry.insert, Registry.lookup, h]
  · simp [Registry.insert, Registry.lookup, h, lookup_removeKey r h]

theorem entryCount_removeKey_self (r : Registry) (k : String) :
    Registry.entryCount (Registry.removeKey r k) k = 0 := by
  induction r with
  | nil => rfl
  | cons p rest ih =>
    obtain ⟨k', v'⟩ := p
    by_cases hk : k' = k
    · simp [Registry.removeKey, hk, ih]
    · simp [Registry.removeKey, Registry.entryCount, hk, ih]

theorem entryCount_removeKey_ne {t k : String} (r : Registry) (h : t ≠ k) :
    Registry.entryCount (Registry.removeKey r k) t = Registry.entryCount r t := by
  induction r with
  | nil => rfl
  | cons p rest ih =>
    obtain ⟨k', v'⟩ := p
    by_cases hk : k' = k
    · subst hk
      have : ¬ k' = t := fun hh => h hh.symm
      simp [Registry.removeKey, Registry.entryCount, this, ih]
    · simp [Registry.removeKey, Registry.entryCount, hk, ih]

theorem entryCount_insert (r : Registry) (k : String) (v : Nat) (t : String) :
    Registry.entryCount (Registry.insert r k v) t =
      if t = k then 1 else Registry.entryCount r t := by
  by_cases h : t = k
  · subst h
    simp [Registry.insert, Registry.entryCount, entryCount_removeKey_self]
  · have : ¬ k = t := fun hh => h hh.symm
    simp [Registry.insert, Registry.entryCount, this, h, entryCount_removeKey_ne r h]

theorem lastOcc_some_mem {topics : List String} {t : String} {j : Nat}
    (h : lastOcc topics t = some j) : t ∈ topics := by
  induction topics generalizing j with
  | nil => exact Option.noConfusion h
  | cons a rest ih =>
    unfold lastOcc at h
    cases hro : lastOcc rest t with
    | some k => exact List.mem_cons_of_mem a (ih hro)
    | none =>
      rw [hro] at h
      by_cases ha : a = t
      · rw [ha]
        exact List.mem_cons_self t rest
      · simp [ha] at h

theorem lastOcc_isSome_of_mem {topics : List String} {t : String} (h : t ∈ topics) :
    ∃ j, lastOcc topics t = some j := by
  induction topics with
  | nil => exact absurd h (List.not_mem_nil t)
  | cons a rest ih =>
    unfold lastOcc
    cases hro : lastOcc rest t with
    | some k => exact ⟨k + 1, rfl⟩
    | none =>
      rcases List.mem_cons.mp h with ha | hr
      · exact ⟨0, by simp [ha.symm]⟩
      · obtain ⟨k, hk⟩ := ih hr
        rw [hk] at hro
        exact Option.noConfusion hro

theorem initLoop_subs (subErr : Nat → Bool) (topics : List String) (i : Nat)
    (files : Registry) : (initLoop subErr topics i files).subs = topics := by
  induction topics generalizing i files with
  | nil => rfl
  | cons a rest ih => simp [initLoop, ih]

theorem initLoop_lookup (subErr : Nat → Bool) (topics : List String) (i : Nat)
    (files : Registry) (t : String) :
    Registry.lookup (initLoop subErr topics i files).files t =
      match lastOcc topics t with
      | some j => some (i + j)
      | none => Registry.lookup files t := by
  induction topics generalizing i files with
  | nil => rfl
  | cons a rest ih =>
    show Registry.lookup (initLoop subErr rest (i + 1) (Registry.insert files a i)).files t = _
    rw [ih]
    cases hro : lastOcc rest t with
    | some j =>
      simp only [lastOcc, hro]
      congr 1
      omega
    | none =>
      simp only [lastOcc, hro, lookup_insert]
      by_cases ha : t = a
      · subst ha
        simp
      · have hne : ¬ a = t := fun hh => ha hh.symm
        simp [ha, hne]

theorem initLoop_entryCount (subErr : Nat → Bool) (topics : List String) (i : Nat)
    (files : Registry) (t : String) :
    Registry.entryCount (initLoop subErr topics i files).files t =
      if t ∈ topics then 1 else Registry.entryCount files t := by
  induction topics generalizing i files with
  | nil => simp [initLoop]
  | cons a rest ih =>
    show Registry.entryCount (initLoop subErr rest (i + 1) (Registry.insert files a i)).files t = _
    rw [ih, entryCount_insert]
    by_cases hr : t ∈ rest
    · simp [hr, List.mem_cons]
    · by_cases ha : t = a
      · simp [hr, ha, List.mem_cons]
      · simp [hr, ha, List.mem_cons]

theorem initLoop_stderr (subErr : Nat → Bool) (topics : List String) (i : Nat)
    (files : Registry) (j : Nat) (hj : j < topics.length)
    (herr : subErr (i + j) = true) :
    Output.stderrLine ("Failed to subscribe to " ++ topics.get ⟨j, hj⟩) ∈
      (initLoop subErr topics i files).outputs := by
  induction topics generalizing i files j with
  | nil => exact absurd hj (Nat.not_lt_zero j)
  | cons a rest ih =>
    cases j with
    | zero =>
      have h0 : subErr i = true := by simpa using herr
      simp [initLoop, h0]
    | succ j' =>
      have hj' : j' < rest.length := Nat.lt_of_succ_lt_succ hj
      have herr' : subErr (i + 1 + j') = true := by
        have : i + 1 + j' = i + (j' + 1) := by omega
        rw [this]
        exact herr
      have hmem := ih (i + 1) (Registry.insert files a i) j' hj' herr'
      simp only [initLoop, List.get_cons_succ]
      exact List.mem_append_right _ hmem

theorem handle_notification_files (clock : Nat → Timestamp) (ev : Event)
    (files : Registry) (n : Nat) :
    (handle_notification clock ev files n).2.1 = files := by
  cases ev with
  | Incoming p => cases p <;> rfl
  | Outgoing => rfl

theorem process_events_files (clock : Nat → Timestamp) (evs : List PollResult)
    (files : Registry) (n : Nat) :
    (process_events clock evs files n).files = files := by
  induction evs generalizing files n with
  | nil => rfl
  | cons pr rest ih =>
    cases pr with
    | ok ev =>
      show (process_events clock rest (handle_notification clock ev files n).2.1
        (handle_notification clock ev files n).2.2).files = files
      rw [ih, handle_notification_files]
    | error e => rfl

theorem process_events_result (clock : Nat → Timestamp) (evs : List PollResult)
    (files : Registry) (n : Nat) :
    (process_events clock evs files n).result = IoResult.ok () := by
  induction evs generalizing files n with
  | nil => rfl
  | cons pr rest ih =>
    cases pr with
    | ok ev =>
      show (process_events clock rest (handle_notification clock ev files n).2.1
        (handle_notification clock ev files n).2.2).result = IoResult.ok ()
      exact ih _ _
    | error e => rfl

/-! ### Concrete fixtures used by counterexamples and witnesses -/

/-- A fixed wall-clock instant: 2024-01-02 03:04:05.006. -/
def tsFix : Timestamp := ⟨2024, 1, 2, 3, 4, 5, 6⟩

/-- A constant clock stream returning `tsFix`. -/
def clkFix : Nat → Timestamp := fun _ => tsFix

/-- A registry holding the single configured topic of the spec's scenario. -/
def regFix : Registry := [("sensors/temp", 0)]

/-- The scenario publication: topic `sensors/temp`, payload `21.5`. -/
def pubFix : Publish := ⟨"sensors/temp", "21.5"⟩

/-! ### Claim theorems -/

/-- C1, counterexample: in the spec's own scenario (one configured topic
`sensors/temp`, one publication with payload `21.5`), the bytes appended to the
topic's file are `\x1b[0m[\x1b[32m2024-01-02 03:04:05.006\x1b[0m] 21.5\n` —
they embed the ANSI-colorized timestamp, not the plain rendering, and contain
the escape character, so the record cannot match the claim's escape-free
regex form. -/
theorem C1_counterexample :
    (process_events clkFix
        [PollResult.ok (Event.Incoming (Packet.Publish pubFix))] regFix 0).outputs.head? =
      some (Output.fileWrite "sensors/temp" 0
        ("\x1b[0m[\x1b[32m2024-01-02 03:04:05.006\x1b[0m] " ++ "21.5" ++ "\n"))
    ∧ "\x1b[0m[\x1b[32m2024-01-02 03:04:05.006\x1b[0m] " ≠ plain_timestamp tsFix
    ∧ '\x1b' ∈ ("\x1b[0m[\x1b[32m2024-01-02 03:04:05.006\x1b[0m] " ++ "21.5" ++ "\n").data := by
  decide

/-- C1 (amended): for every received publication whose topic is present in the
registry, the bytes appended to that topic's file are exactly the
ANSI-colorized fixed-width timestamp rendering (reset escape, `[`, green
escape, the `YYYY-MM-DD HH:MM:SS.mmm` digit block, reset escape, `] `) followed
by the raw payload bytes followed by one newline; in particular the file record
does contain ANSI escape sequences — the same colorized rendering the console
gets, not the plain form. -/
theorem C1_file_record_colorized (clock : Nat → Timestamp) (pub : Publish)
    (files : Registry) (n hnd : Nat)
    (hfound : Registry.lookup files pub.topic = some hnd) :
    (handle_notification clock (Event.Incoming (Packet.Publish pub)) files n).1.head? =
      some (Output.fileWrite pub.topic hnd (generate_timestamp (clock n) ++ pub.payload ++ "\n"))
    ∧ generate_timestamp (clock n) =
        RESET ++ "[" ++ GREEN ++ timestamp_digits (clock n) ++ RESET ++ "] "
    ∧ '\x1b' ∈ (generate_timestamp (clock n) ++ pub.payload ++ "\n").data := by
  refine ⟨?_, rfl, esc_mem_record (clock n) pub.payload⟩
  simp [handle_notification, write_to_file, write_to_stdout, hfound]

/-- C1, witness: the amended theorem applied to the scenario publication. -/
theorem C1_witness :
    Registry.lookup regFix pubFix.topic = some 0
    ∧ ((handle_notification clkFix (Event.Incoming (Packet.Publish pubFix)) regFix 0).1.head? =
        some (Output.fileWrite pubFix.topic 0 (generate_timestamp (clkFix 0) ++ pubFix.payload ++ "\n"))
      ∧ generate_timestamp (clkFix 0) =
          RESET ++ "[" ++ GREEN ++ timestamp_digits (clkFix 0) ++ RESET ++ "] "
      ∧ '\x1b' ∈ (generate_timestamp (clkFix 0) ++ pubFix.payload ++ "\n").data) :=
  ⟨by decide, C1_file_record_colorized clkFix pubFix regFix 0 0 (by decide)⟩

/-- C2, counterexample: a run whose first poll yields a transport error prints
the error detail to stderr and ends the loop, but `process_events` returns
`Ok(())`, so the process exit status is 0 — not non-zero as the claim states. -/
theorem C2_counterexample :
    (run_main (fun _ => false) ["sensors/temp"] clkFix
        [PollResult.error "connection reset by peer"]).1.outputs =
      [Output.stderrLine "connection reset by peer"]
    ∧ (run_main (fun _ => false) ["sensors/temp"] clkFix
        [PollResult.error "connection reset by peer"]).1.result = IoResult.ok ()
    ∧ (run_main (fun _ => false) ["sensors/temp"] clkFix
        [PollResult.error "connection reset by peer"]).2 = 0 := by
  decide

/-- C2 (amended): after any prefix of successfully polled notifications, a
transport poll error makes the event loop emit the error detail to the operator
stream (it is the final output of the run) and terminate without consuming any
later poll result, and `process_events` returns `Ok`, so the process then exits
with status zero — the poll error is fatal to the loop but the process exit
status is 0, not non-zero. -/
theorem C2_poll_error_terminates (clock : Nat → Timestamp) (pre : List Event)
    (e : String) (rest : List PollResult) (files : Registry) (n : Nat) :
    (process_events clock (pre.map PollResult.ok ++ PollResult.error e :: rest) files n).remaining = rest
    ∧ (process_events clock (pre.map PollResult.ok ++ PollResult.error e :: rest) files n).result =
        IoResult.ok ()
    ∧ exit_code (process_events clock (pre.map PollResult.ok ++ PollResult.error e :: rest) files n).result = 0
    ∧ (process_events clock (pre.map PollResult.ok ++ PollResult.error e :: rest) files n).outputs.getLast? =
        some (Output.stderrLine e) := by
  induction pre generalizing files n with
  | nil => exact ⟨rfl, rfl, rfl, rfl⟩
  | cons ev pre ih =>
    obtain ⟨h1, h2, h3, h4⟩ :=
      ih (handle_notification clock ev files n).2.1 (handle_notification clock ev files n).2.2
    refine ⟨h1, h2, h3, ?_⟩
    show ((handle_notification clock ev files n).1 ++ _).getLast? = _
    exact getLast?_append_some _ h4

/-- C3: a publication whose topic is absent from the registry produces no file
write at all, exactly one operator warning naming the topic, still produces the
console record, and leaves the loop to continue with the rest of the trace
(its termination status and leftover trace are exactly those of processing the
remaining poll results). -/
theorem C3_unknown_topic (clock : Nat → Timestamp) (pub : Publish)
    (rest : List PollResult) (files : Registry) (n : Nat)
    (habsent : Registry.lookup files pub.topic = none) :
    (handle_notification clock (Event.Incoming (Packet.Publish pub)) files n).1 =
      [Output.stderrLine ("Got packet from topic " ++ pub.topic ++
          ", but that topic file was not created!"),
       Output.stdoutWrite (generate_timestamp (clock n) ++ topic_tag pub.topic ++
          pub.payload ++ "\n")]
    ∧ countFileWrites (handle_notification clock (Event.Incoming (Packet.Publish pub)) files n).1 = 0
    ∧ (process_events clock (PollResult.ok (Event.Incoming (Packet.Publish pub)) :: rest) files n).remaining =
        (process_events clock rest files (n + 1)).remaining
    ∧ (process_events clock (PollResult.ok (Event.Incoming (Packet.Publish pub)) :: rest) files n).result =
        (process_events clock rest files (n + 1)).result := by
  have hstep : (handle_notification clock (Event.Incoming (Packet.Publish pub)) files n).1 =
      [Output.stderrLine ("Got packet from topic " ++ pub.topic ++
          ", but that topic file was not created!"),
       Output.stdoutWrite (generate_timestamp (clock n) ++ topic_tag pub.topic ++
          pub.payload ++ "\n")] := by
    simp [handle_notification, write_to_file, write_to_stdout, habsent]
  refine ⟨hstep, ?_, rfl, rfl⟩
  rw [hstep]
  rfl

/-- C3, witness: the theorem applied to a publication for the unconfigured
topic `other` against the scenario registry. -/
theorem C3_witness :
    Registry.lookup regFix "other" = none
    ∧ ((handle_notification clkFix (Event.Incoming (Packet.Publish ⟨"other", "x"⟩)) regFix 0).1 =
        [Output.stderrLine ("Got packet from topic " ++ "other" ++
            ", but that topic file was not created!"),
         Output.stdoutWrite (generate_timestamp (clkFix 0) ++ topic_tag "other" ++ "x" ++ "\n")]
      ∧ countFileWrites (handle_notification clkFix
          (Event.Incoming (Packet.Publish ⟨"other", "x"⟩)) regFix 0).1 = 0
      ∧ (process_events clkFix (PollResult.ok (Event.Incoming (Packet.Publish ⟨"other", "x"⟩)) :: []) regFix 0).remaining =
          (process_events clkFix [] regFix 1).remaining
      ∧ (process_events clkFix (PollResult.ok (Event.Incoming (Packet.Publish ⟨"other", "x"⟩)) :: []) regFix 0).result =
          (process_events clkFix [] regFix 1).result) :=
  ⟨by decide, C3_unknown_topic clkFix ⟨"other", "x"⟩ [] regFix 0 (by decide)⟩

/-- C4: if the poll trace is N publications for registered topics followed by
a poll error, the run performs exactly N durable file appends, the error
detail is emitted to the operator stream (as the final output), and the loop
exits leaving everything after the error unpolled and unprocessed. -/
theorem C4_error_after_n (clock : Nat → Timestamp) (pubs : List Publish) (e : String)
    (rest : List PollResult) (files : Registry) (n : Nat)
    (hknown : ∀ p ∈ pubs, (Registry.lookup files p.topic).isSome = true) :
    countFileWrites (process_events clock
        (pubs.map (fun p => PollResult.ok (Event.Incoming (Packet.Publish p))) ++
          PollResult.error e :: rest) files n).outputs = pubs.length
    ∧ (process_events clock
        (pubs.map (fun p => PollResult.ok (Event.Incoming (Packet.Publish p))) ++
          PollResult.error e :: rest) files n).remaining = rest
    ∧ (process_events clock
        (pubs.map (fun p => PollResult.ok (Event.Incoming (Packet.Publish p))) ++
          PollResult.error e :: rest) files n).outputs.getLast? =
        some (Output.stderrLine e) := by
  revert hknown
  induction pubs generalizing n with
  | nil => exact fun _ => ⟨rfl, rfl, rfl⟩
  | cons p pubs ih =>
    intro hknown
    have hp : (Registry.lookup files p.topic).isSome = true :=
      hknown p (List.mem_cons_self p pubs)
    obtain ⟨hnd, hhnd⟩ := Option.isSome_iff_exists.mp hp
    have hrest : ∀ q ∈ pubs, (Registry.lookup files q.topic).isSome = true :=
      fun q hq => hknown q (List.mem_cons_of_mem p hq)
    obtain ⟨ih1, ih2, ih3⟩ := ih (n + 1) hrest
    have hstep : (handle_notification clock (Event.Incoming (Packet.Publish p)) files n).1 =
        [Output.fileWrite p.topic hnd (generate_timestamp (clock n) ++ p.payload ++ "\n"),
         Output.stdoutWrite (generate_timestamp (clock n) ++ topic_tag p.topic ++
           p.payload ++ "\n")] := by
      simp [handle_notification, write_to_file, write_to_stdout, hhnd]
    refine ⟨?_, ih2, ?_⟩
    · show countFileWrites
          ((handle_notification clock (Event.Incoming (Packet.Publish p)) files n).1 ++
            (process_events clock
              (pubs.map (fun q => PollResult.ok (Event.Incoming (Packet.Publish q))) ++
                PollResult.error e :: rest) files (n + 1)).outputs) = (p :: pubs).length
      rw [countFileWrites_append, hstep, ih1]
      simp [countFileWrites, List.filter, isFileWrite]
      omega
    · show ((handle_notification clock (Event.Incoming (Packet.Publish p)) files n).1 ++
          (process_events clock
            (pubs.map (fun q => PollResult.ok (Event.Incoming (Packet.Publish q))) ++
              PollResult.error e :: rest) files (n + 1)).outputs).getLast? =
        some (Output.stderrLine e)
      exact getLast?_append_some _ ih3

/-- C4, witness: one registered-topic publication followed by a poll error:
one file append, the error emitted last, nothing after the error consumed. -/
theorem C4_witness :
    (∀ p ∈ [pubFix], (Registry.lookup regFix p.topic).isSome = true)
    ∧ (countFileWrites (process_events clkFix
        ([pubFix].map (fun p => PollResult.ok (Event.Incoming (Packet.Publish p))) ++
          PollResult.error "broker gone" ::
            [PollResult.ok (Event.Incoming Packet.Disconnect)]) regFix 0).outputs = [pubFix].length
      ∧ (process_events clkFix
          ([pubFix].map (fun p => PollResult.ok (Event.Incoming (Packet.Publish p))) ++
            PollResult.error "broker gone" ::
              [PollResult.ok (Event.Incoming Packet.Disconnect)]) regFix 0).remaining =
          [PollResult.ok (Event.Incoming Packet.Disconnect)]
      ∧ (process_events clkFix
          ([pubFix].map (fun p => PollResult.ok (Event.Incoming (Packet.Publish p))) ++
            PollResult.error "broker gone" ::
              [PollResult.ok (Event.Incoming Packet.Disconnect)]) regFix 0).outputs.getLast? =
          some (Output.stderrLine "broker gone")) :=
  ⟨by decide, C4_error_after_n clkFix [pubFix] "broker gone"
      [PollResult.ok (Event.Incoming Packet.Disconnect)] regFix 0 (by decide)⟩

/-- C5: dispatching a publication advances the timestamp-computation counter
by exactly one (the clock is read once, at reception), and the file record and
the console record both embed the rendering of that single captured instant
`clock n` — identical year, month, day, hour, minute, second and millisecond
values — the console record differing only by its extra colorized topic tag. -/
theorem C5_single_instant (clock : Nat → Timestamp) (pub : Publish) (files : Registry)
    (n hnd : Nat) (hfound : Registry.lookup files pub.topic = some hnd) :
    (handle_notification clock (Event.Incoming (Packet.Publish pub)) files n).2.2 = n + 1
    ∧ (handle_notification clock (Event.Incoming (Packet.Publish pub)) files n).1 =
        [Output.fileWrite pub.topic hnd (generate_timestamp (clock n) ++ pub.payload ++ "\n"),
         Output.stdoutWrite (generate_timestamp (clock n) ++ topic_tag pub.topic ++
           pub.payload ++ "\n")] := by
  refine ⟨rfl, ?_⟩
  simp [handle_notification, write_to_file, write_to_stdout, hfound]

/-- C5, witness: the theorem applied to the scenario publication. -/
theorem C5_witness :
    Registry.lookup regFix pubFix.topic = some 0
    ∧ ((handle_notification clkFix (Event.Incoming (Packet.Publish pubFix)) regFix 0).2.2 = 0 + 1
      ∧ (handle_notification clkFix (Event.Incoming (Packet.Publish pubFix)) regFix 0).1 =
          [Output.fileWrite pubFix.topic 0 (generate_timestamp (clkFix 0) ++ pubFix.payload ++ "\n"),
           Output.stdoutWrite (generate_timestamp (clkFix 0) ++ topic_tag pubFix.topic ++
             pubFix.payload ++ "\n")]) :=
  ⟨by decide, C5_single_instant clkFix pubFix regFix 0 0 (by decide)⟩

/-- C6: the registry built by initialization holds exactly one entry per
distinct configured topic and none for any other string; and the event
dispatcher, run by `main` only after initialization completes, leaves that
registry identical across any poll trace (no entry added, removed or
replaced). -/
theorem C6_registry_invariant (subErr : Nat → Bool) (topics : List String)
    (clock : Nat → Timestamp) (evs : List PollResult) :
    (∀ t, Registry.entryCount (initialize_files_and_subscriptions subErr topics).files t =
        if t ∈ topics then 1 else 0)
    ∧ (run_main subErr topics clock evs).1.files =
        (initialize_files_and_subscriptions subErr topics).files := by
  constructor
  · intro t
    show Registry.entryCount (initLoop subErr topics 0 []).files t = _
    rw [initLoop_entryCount]
    rfl
  · exact process_events_files clock evs _ 0

/-- C7: if the subscribe-command submission for the `j`-th topic fails during
initialization, a failure message naming that topic is reported to the
operator stream, that topic's file is nevertheless opened and bound in the
registry, every configured topic is bound in the registry, and the full
ordered topic list still had one subscribe command issued per element. -/
theorem C7_subscribe_failure_isolation (subErr : Nat → Bool) (topics : List String)
    (j : Nat) (hj : j < topics.length) (hfail : subErr j = true) :
    Output.stderrLine ("Failed to subscribe to " ++ topics.get ⟨j, hj⟩) ∈
      (initialize_files_and_subscriptions subErr topics).outputs
    ∧ (Registry.lookup (initialize_files_and_subscriptions subErr topics).files
        (topics.get ⟨j, hj⟩)).isSome = true
    ∧ (∀ t ∈ topics,
        (Registry.lookup (initialize_files_and_subscriptions subErr topics).files t).isSome = true)
    ∧ (initialize_files_and_subscriptions subErr topics).subs = topics := by
  have lkp : ∀ t ∈ topics,
      (Registry.lookup (initialize_files_and_subscriptions subErr topics).files t).isSome = true := by
    intro t ht
    obtain ⟨k, hk⟩ := lastOcc_isSome_of_mem ht
    show (Registry.lookup (initLoop subErr topics 0 []).files t).isSome = true
    rw [initLoop_lookup, hk]
    rfl
  have herr0 : subErr (0 + j) = true := by simpa using hfail
  refine ⟨?_, lkp _ (List.get_mem topics j hj), lkp, initLoop_subs subErr topics 0 []⟩
  show Output.stderrLine ("Failed to subscribe to " ++ topics.get ⟨j, hj⟩) ∈
    Output.stdoutLine ("Selected topics: " ++ fmtTopics topics) ::
      (initLoop subErr topics 0 []).outputs
  exact List.mem_cons_of_mem _ (initLoop_stderr subErr topics 0 [] j hj herr0)

/-- C7, witness: subscribing to the first of two topics fails; its file is
still bound, both topics are bound, and both subscribe commands were issued. -/
theorem C7_witness :
    (fun i => i == 0) 0 = true
    ∧ 0 < (["alpha", "beta"] : List String).length
    ∧ Output.stderrLine ("Failed to subscribe to " ++ "alpha") ∈
        (initialize_files_and_subscriptions (fun i => i == 0) ["alpha", "beta"]).outputs
    ∧ (Registry.lookup (initialize_files_and_subscriptions (fun i => i == 0)
        ["alpha", "beta"]).files "alpha").isSome = true
    ∧ (Registry.lookup (initialize_files_and_subscriptions (fun i => i == 0)
        ["alpha", "beta"]).files "beta").isSome = true
    ∧ (initialize_files_and_subscriptions (fun i => i == 0) ["alpha", "beta"]).subs =
        ["alpha", "beta"] :=
  ⟨rfl, by decide,
    (C7_subscribe_failure_isolation (fun i => i == 0) ["alpha", "beta"] 0 (by decide) rfl).1,
    (C7_subscribe_failure_isolation (fun i => i == 0) ["alpha", "beta"] 0 (by decide) rfl).2.1,
    (C7_subscribe_failure_isolation (fun i => i == 0) ["alpha", "beta"] 0 (by decide) rfl).2.2.1
      "beta" (by decide),
    (C7_subscribe_failure_isolation (fun i => i == 0) ["alpha", "beta"] 0 (by decide) rfl).2.2.2⟩

/-- C8: for a publication with a registered topic, the output trace of the run
is the durable file append, immediately followed by the console record, both
produced inside the same dispatch iteration, followed only then by the outputs
of all later notifications — so no other publication's write is interleaved
between the two sink writes. -/
theorem C8_file_before_console (clock : Nat → Timestamp) (pub : Publish)
    (rest : List PollResult) (files : Registry) (n hnd : Nat)
    (hfound : Registry.lookup files pub.topic = some hnd) :
    (process_events clock
        (PollResult.ok (Event.Incoming (Packet.Publish pub)) :: rest) files n).outputs =
      Output.fileWrite pub.topic hnd (generate_timestamp (clock n) ++ pub.payload ++ "\n") ::
      Output.stdoutWrite (generate_timestamp (clock n) ++ topic_tag pub.topic ++
        pub.payload ++ "\n") ::
      (process_events clock rest files (n + 1)).outputs := by
  show (handle_notification clock (Event.Incoming (Packet.Publish pub)) files n).1 ++
      (process_events clock rest files (n + 1)).outputs = _
  simp [handle_notification, write_to_file, write_to_stdout, hfound]

/-- C8, witness: the theorem applied to the scenario publication followed by a
second publication for the same topic. -/
theorem C8_witness :
    Registry.lookup regFix pubFix.topic = some 0
    ∧ (process_events clkFix
        (PollResult.ok (Event.Incoming (Packet.Publish pubFix)) ::
          [PollResult.ok (Event.Incoming (Packet.Publish ⟨"sensors/temp", "22.0"⟩))]) regFix 0).outputs =
      Output.fileWrite pubFix.topic 0 (generate_timestamp (clkFix 0) ++ pubFix.payload ++ "\n") ::
      Output.stdoutWrite (generate_timestamp (clkFix 0) ++ topic_tag pubFix.topic ++
        pubFix.payload ++ "\n") ::
      (process_events clkFix
        [PollResult.ok (Event.Incoming (Packet.Publish ⟨"sensors/temp", "22.0"⟩))] regFix 1).outputs :=
  ⟨by decide, C8_file_before_console clkFix pubFix
      [PollResult.ok (Event.Incoming (Packet.Publish ⟨"sensors/temp", "22.0"⟩))] regFix 0 0 (by decide)⟩

/-- C9, counterexample: a topic-list file whose content is `a\n\nb` (an
interior blank line) resolves to the list `["a", "", "b"]`, which contains the
empty-string topic — refuting the claim that no empty-string topics are
produced for any file content. -/
theorem C9_counterexample :
    initialize_topics (some "topics.txt") [] (fun _ => IoResult.ok "a\n\nb") =
      IoResult.ok ["a", "", "b"]
    ∧ "" ∈ ["a", "", "b"] := by
  decide

/-- C9 (amended): when topics are read from a topic-list file, the resolved
list contains one topic string per line of the whole-content-trimmed file,
each line further trimmed of surrounding whitespace; a line that is entirely
whitespace (an interior blank line — leading and trailing blank lines are
removed by the initial whole-content trim) yields the empty-string topic, so
only when every such line contains a non-whitespace character are all resolved
topics non-empty. -/
theorem C9_topics_file_lines (path : String) (cli : List String)
    (readFile : String → IoResult String) (content : String)
    (hread : readFile path = IoResult.ok content)
    (hlines : ∀ l ∈ rustLines (rustTrim content), rustTrim l ≠ "") :
    initialize_topics (some path) cli readFile =
      IoResult.ok ((rustLines (rustTrim content)).map rustTrim)
    ∧ ∀ t ∈ (rustLines (rustTrim content)).map rustTrim, t ≠ "" := by
  refine ⟨by simp [initialize_topics, hread], ?_⟩
  intro t ht
  obtain ⟨l, hl, rfl⟩ := List.mem_map.mp ht
  exact hlines l hl

/-- C9, witness: a two-line topic file with no interior blank line resolves to
two non-empty topics. -/
theorem C9_witness :
    ((fun _ : String => IoResult.ok " sensors/temp \nsensors/rh") "topics.txt" =
      IoResult.ok " sensors/temp \nsensors/rh")
    ∧ (∀ l ∈ rustLines (rustTrim " sensors/temp \nsensors/rh"), rustTrim l ≠ "")
    ∧ (initialize_topics (some "topics.txt") []
        (fun _ => IoResult.ok " sensors/temp \nsensors/rh") =
        IoResult.ok ((rustLines (rustTrim " sensors/temp \nsensors/rh")).map rustTrim))
    ∧ "" ∉ (rustLines (rustTrim " sensors/temp \nsensors/rh")).map rustTrim :=
  ⟨rfl, by decide,
    (C9_topics_file_lines "topics.txt" [] (fun _ => IoResult.ok " sensors/temp \nsensors/rh")
      " sensors/temp \nsensors/rh" rfl (by decide)).1,
    fun hmem =>
      (C9_topics_file_lines "topics.txt" [] (fun _ => IoResult.ok " sensors/temp \nsensors/rh")
        " sensors/temp \nsensors/rh" rfl (by decide)).2 "" hmem rfl⟩

/-- C10: for a configured topic list with duplicate occurrences of a topic,
initialization still issues one subscribe command per list element (N commands
for N occurrences), the registry ends with exactly one entry for the topic,
that entry is bound to the file handle opened at the topic's last occurrence
(handles are numbered by opening iteration), and a subsequent publication for
the topic is appended through that single handle. -/
theorem C10_duplicate_topics (subErr : Nat → Bool) (topics : List String) (t : String)
    (j : Nat) (hlast : lastOcc topics t = some j) :
    (initialize_files_and_subscriptions subErr topics).subs = topics
    ∧ Registry.entryCount (initialize_files_and_subscriptions subErr topics).files t = 1
    ∧ Registry.lookup (initialize_files_and_subscriptions subErr topics).files t = some j
    ∧ ∀ ts payload, write_to_file ts (Publish.mk t payload)
        (initialize_files_and_subscriptions subErr topics).files =
        [Output.fileWrite t j (ts ++ payload ++ "\n")] := by
  have hmem : t ∈ topics := lastOcc_some_mem hlast
  have hlkp : Registry.lookup (initialize_files_and_subscriptions subErr topics).files t =
      some j := by
    show Registry.lookup (initLoop subErr topics 0 []).files t = some j
    rw [initLoop_lookup, hlast]
    simp
  refine ⟨initLoop_subs subErr topics 0 [], ?_, hlkp, ?_⟩
  · show Registry.entryCount (initLoop subErr topics 0 []).files t = 1
    rw [initLoop_entryCount]
    simp [hmem]
  · intro ts payload
    simp [write_to_file, hlkp]

/-- C10, witness: the topic `tic` occurs at positions 0 and 2 of the list;
three subscribe commands are issued, `tic` has one registry entry bound to
handle 2 (the last occurrence), and a later publication goes through it. -/
theorem C10_witness :
    lastOcc ["tic", "toc", "tic"] "tic" = some 2
    ∧ (initialize_files_and_subscriptions (fun _ => false) ["tic", "toc", "tic"]).subs =
        ["tic", "toc", "tic"]
    ∧ Registry.entryCount
        (initialize_files_and_subscriptions (fun _ => false) ["tic", "toc", "tic"]).files "tic" = 1
    ∧ Registry.lookup
        (initialize_files_and_subscriptions (fun _ => false) ["tic", "toc", "tic"]).files "tic" =
        some 2
    ∧ write_to_file "[ts] " (Publish.mk "tic" "5")
        (initialize_files_and_subscriptions (fun _ => false) ["tic", "toc", "tic"]).files =
        [Output.fileWrite "tic" 2 ("[ts] " ++ "5" ++ "\n")] :=
  ⟨by decide,
    (C10_duplicate_topics (fun _ => false) ["tic", "toc", "tic"] "tic" 2 (by decide)).1,
    (C10_duplicate_topics (fun _ => false) ["tic", "toc", "tic"] "tic" 2 (by decide)).2.1,
    (C10_duplicate_topics (fun _ => false) ["tic", "toc", "tic"] "tic" 2 (by decide)).2.2.1,
    (C10_duplicate_topics (fun _ => false) ["tic", "toc", "tic"] "tic" 2 (by decide)).2.2.2
      "[ts] " "5"⟩
